import Mathlib

/-!
Verification development for the Psychophysics repository.

The repository contains two Express server variants for a rating study
(src/webapp/server/server.js and the "web browser" variant), a PostgreSQL
schema dump for the study database, and a prompt list describing the
tone-mapping batch pipeline.  The server handlers and the schema
constraints are embedded below directly from the JavaScript and SQL
sources; the tone-mapping core (splitter, decomposer, tone curve, batch
preset driver) is not present as code in the repository, so those parts
are modelled from the specification, as noted on each definition.
-/

set_option maxRecDepth 4000

/-- Model of the JavaScript expression imageUrl.match(/sharpen_(\d+)/) at a
single starting position: succeeds when the characters at this position are
the literal text sharpen underscore followed by at least one digit, and
returns the maximal digit run. -/
def sharpenHere : List Char → Option (List Char)
  | 's' :: 'h' :: 'a' :: 'r' :: 'p' :: 'e' :: 'n' :: '_' :: rest =>
    let ds := rest.takeWhile Char.isDigit
    if ds.isEmpty then none else some ds
  | _ => none

/-- The scan the regex engine performs: try to match at every position, left
to right, returning the first match. -/
def sharpenScan : List Char → Option (List Char)
  | [] => none
  | c :: rest =>
    match sharpenHere (c :: rest) with
    | some ds => some ds
    | none => sharpenScan rest

/-- parseInt applied to the captured digit group. -/
def digitsToNat (ds : List Char) : Nat :=
  ds.foldl (fun a c => 10 * a + (c.toNat - 48)) 0

/-- Model of the sharpening-level extraction in both server variants:
the regex match followed by parseInt, or null when there is no match
(src/webapp/server/server.js line 92, src/web browser/server/server.js
line 89). -/
def findSharpenStr (s : String) : Option Nat :=
  (sharpenScan s.toList).map digitsToNat

/-- A row of the users table as written by the webapp server's upsert
(src/webapp/server/server.js lines 110-140). -/
structure UserRow where
  id : Nat
  email : String
  gender : String
  age : Nat
  selfDescription : String
  visionStatus : String
  visionDetails : Option String
  colorBlind : Bool
  countryOfOrigin : String
  displayType : String
  lighting : String
  deriving DecidableEq, Repr

/-- A row of the image_ratings table (schema dump, src/unnamed/part_002). -/
structure ImageRatingRow where
  userId : Nat
  imageUrl : String
  sharpeningLevel : Nat
  realism : Int
  quality : Int
  deriving DecidableEq, Repr

/-- A row of the parallel ratings table used by the "web browser" server
variant (schema dump, src/unnamed/part_002): no CHECK constraints. -/
structure RatingRow where
  imageUrl : String
  realism : Int
  quality : Int
  sharpeningLevel : Nat
  age : Nat
  gender : String
  email : String
  deriving DecidableEq, Repr

/-- The database state: the three tables of the schema dump plus the users
id sequence. -/
structure Db where
  users : List UserRow
  imageRatings : List ImageRatingRow
  ratings : List RatingRow
  nextUserId : Nat
  deriving DecidableEq, Repr

def emptyDb : Db := ⟨[], [], [], 1⟩

/-- The body of a POST /submit-rating request, with the fields both server
variants read.  Option models JSON null/undefined for the loosely checked
fields; the remaining demographics are only read by the webapp variant's
upsert. -/
structure SubmitRequest where
  imageUrl : String
  realism : Option Int
  quality : Option Int
  age : Nat
  gender : String
  email : String
  selfDescription : String
  visionStatus : String
  visionDetails : Option String
  colorBlind : String
  countryOfOrigin : String
  displayType : String
  lighting : String
  deriving DecidableEq, Repr

/-- INSERT INTO image_ratings, subject to the CHECK constraints
image_ratings_realism_check and image_ratings_quality_check of the schema
dump: the insert fails (none) when realism or quality is outside 1..5. -/
def insertImageRating (db : Db) (row : ImageRatingRow) : Option Db :=
  if 1 ≤ row.realism ∧ row.realism ≤ 5 ∧ 1 ≤ row.quality ∧ row.quality ≤ 5 then
    some { db with imageRatings := db.imageRatings ++ [row] }
  else none

/-- The DO UPDATE arm of the webapp server's upsert, applied to the row
whose email matches the conflict target. -/
def updateUser (req : SubmitRequest) (v : UserRow) : UserRow :=
  if v.email = req.email then
    { v with gender := req.gender, age := req.age,
             selfDescription := req.selfDescription,
             visionStatus := req.visionStatus,
             visionDetails := req.visionDetails,
             colorBlind := req.colorBlind = "Yes",
             countryOfOrigin := req.countryOfOrigin,
             displayType := req.displayType,
             lighting := req.lighting }
  else v

/-- INSERT INTO users ... ON CONFLICT (email) DO UPDATE ... RETURNING id
(src/webapp/server/server.js lines 110-140): on conflict the existing row
is updated in place and its id returned, otherwise a fresh row is
appended. -/
def upsertUser (db : Db) (req : SubmitRequest) : Db × Nat :=
  match db.users.find? (fun u => u.email == req.email) with
  | some u => ({ db with users := db.users.map (updateUser req) }, u.id)
  | none =>
    let uid := db.nextUserId
    ({ db with
        users := db.users ++ [⟨uid, req.email, req.gender, req.age,
          req.selfDescription, req.visionStatus, req.visionDetails,
          req.colorBlind = "Yes", req.countryOfOrigin, req.displayType,
          req.lighting⟩],
        nextUserId := uid + 1 }, uid)

/-- The POST /submit-rating handler of src/webapp/server/server.js: extract
the sharpening level from the image url, validate the request (responding
400 with nothing written when a field is missing), then run the user
upsert and the image_ratings insert inside a single transaction: on any
query failure the transaction is rolled back, leaving the database
unchanged, and the response is 500; on success both writes are committed
and the response is 200.  The result is (HTTP status, database state). -/
def webappSubmit (req : SubmitRequest) (db : Db) : Nat × Db :=
  match req.realism, req.quality, findSharpenStr req.imageUrl with
  | some re, some qu, some sh =>
    if req.imageUrl = "" ∨ req.age = 0 ∨ req.gender = "" ∨ req.email = "" then
      (400, db)
    else
      match insertImageRating (upsertUser db req).1
          ⟨(upsertUser db req).2, req.imageUrl, sh, re, qu⟩ with
      | some db2 => (200, db2)
      | none => (500, db)
  | _, _, _ => (400, db)

/-- The POST /submit-rating handler of the "web browser" server variant:
same validation, then a single INSERT into the ratings table, which has no
CHECK constraints, so the insert always succeeds. -/
def browserSubmit (req : SubmitRequest) (db : Db) : Nat × Db :=
  match req.realism, req.quality, findSharpenStr req.imageUrl with
  | some re, some qu, some sh =>
    if req.imageUrl = "" ∨ req.age = 0 ∨ req.gender = "" ∨ req.email = "" then
      (400, db)
    else
      (200, { db with ratings := db.ratings ++
        [⟨req.imageUrl, re, qu, sh, req.age, req.gender, req.email⟩] })
  | _, _, _ => (400, db)

/-- Modelled from the spec: a preset of the batch driver (src code for the
Python batch script is absent from src/; the table comes from prompt 4 of
src/unnamed/part_000 and spec section 6): either the minimal pass-through
preset, or a pair of tone parameters (shadow gamma, exposure stops). -/
inductive Preset where
  | minimal : Preset
  | toned : ℚ → ℚ → Preset
  deriving DecidableEq, Repr

/-- Modelled from the spec: the fixed ordered preset table, index 1 first:
the minimal baseline, then the five (shadow gamma, stops) pairs of the
prompt list.  A Lean definition is immutable, matching the requirement
that the table is constructed once and never mutated. -/
def presetTable : List Preset :=
  [Preset.minimal,
   Preset.toned 1.15 0.5,
   Preset.toned 1.25 1.0,
   Preset.toned 1.5 1.5,
   Preset.toned 1.75 1.75,
   Preset.toned 2.0 2.0]

/-- Modelled from the spec: the destination path composed by the batch
driver: output dir, original file name, the 1-based preset index, and the
two tone parameters in a fixed decimal rendering. -/
def outputName (dir file : String) (n : Nat) (sg st ext : String) : String :=
  dir ++ "/" ++ file ++ "_preset" ++ toString n ++ "_sg" ++ sg ++ "_st" ++ st
    ++ "." ++ ext

/-- Fixed two-decimal rendering of a preset parameter (all preset values
are multiples of 1/100). -/
def fmt2 (q : ℚ) : String :=
  let c := (q * 100).num.toNat
  toString (c / 100) ++ "." ++ (if c % 100 < 10 then "0" else "")
    ++ toString (c % 100)

/-- The (shadow gamma, stops) strings a preset contributes to the output
file name; the minimal preset uses its no-op values. -/
def presetStrings : Preset → String × String
  | Preset.minimal => ("1.00", "0.00")
  | Preset.toned sg st => (fmt2 sg, fmt2 st)

/-- Modelled from the spec: Rec. 709 red luma weight (the standard luma
weights of spec section 3). -/
def wr : ℚ := 2126 / 10000

/-- Modelled from the spec: Rec. 709 green luma weight. -/
def wg : ℚ := 7152 / 10000

/-- Modelled from the spec: Rec. 709 blue luma weight. -/
def wb : ℚ := 722 / 10000

/-- A pixel of a LinearImage: a floating RGB triple, modelled with exact
rationals. -/
structure Pixel where
  r : ℚ
  g : ℚ
  b : ℚ
  deriving DecidableEq, Repr

/-- Modelled from the spec: luminance as the fixed weighted sum of the RGB
channels. -/
def lum (p : Pixel) : ℚ := wr * p.r + wg * p.g + wb * p.b

/-- Per-pixel chrominance: the ratio of each channel to luminance. -/
structure ChromaPixel where
  cr : ℚ
  cg : ℚ
  cb : ℚ
  deriving DecidableEq, Repr

/-- Modelled from the spec: chrominance as channel over luminance, with the
epsilon floor on luminance avoiding division by zero in near-black
pixels. -/
def chromaPixel (eps : ℚ) (p : Pixel) : ChromaPixel :=
  ⟨p.r / max (lum p) eps, p.g / max (lum p) eps, p.b / max (lum p) eps⟩

/-- Modelled from the spec: recombination of one pixel: each chrominance
ratio times the (possibly modified) luminance. -/
def recombinePixel (y : ℚ) (c : ChromaPixel) : Pixel :=
  ⟨c.cr * y, c.cg * y, c.cb * y⟩

/-- Modelled from the spec: a decoded HDR source image: dimensions and the
row-major pixel grid. -/
structure LinearImage where
  width : Nat
  height : Nat
  data : List Pixel
  deriving DecidableEq, Repr

/-- The error kinds of spec section 7 that the in-memory pipeline stages
can raise. -/
inductive ImgError where
  | DegenerateImageError : ImgError
  | EncodeFailure : ImgError
  deriving DecidableEq, Repr

/-- Modelled from the spec: split of a LinearImage into its LuminanceField
and ChrominanceField; fails with DegenerateImageError when width or height
is zero. -/
def splitImage (eps : ℚ) (img : LinearImage) :
    Except ImgError (List ℚ × List ChromaPixel) :=
  if img.width = 0 ∨ img.height = 0 then
    Except.error ImgError.DegenerateImageError
  else
    Except.ok (img.data.map lum, img.data.map (chromaPixel eps))

/-- Modelled from the spec: recombine a luminance field with a chrominance
field pixel by pixel. -/
def recombineImage (ys : List ℚ) (cs : List ChromaPixel) : List Pixel :=
  List.zipWith recombinePixel ys cs

/-- The round trip of one pixel through split and recombine with its
luminance unmodified. -/
def roundTripPixel (eps : ℚ) (p : Pixel) : Pixel :=
  recombinePixel (lum p) (chromaPixel eps p)

/-- Modelled from the spec: the processing of one (image, preset) pair as
far as failure is concerned: split is the only fallible in-memory stage
(the tone-curve stage, modelled separately over the reals, is total), so
the run succeeds exactly when split does. -/
def processPair (eps : ℚ) (img : LinearImage) (_p : Preset) :
    Except ImgError (List Pixel) :=
  match splitImage eps img with
  | Except.error e => Except.error e
  | Except.ok lc => Except.ok (recombineImage lc.1 lc.2)

/-- The terminal report of a batch run: the destination names written, the
decode failure count, the per-image processing failure count, and the
Done flag of the driver state machine. -/
structure BatchResult where
  outputs : List String
  decodeFailures : Nat
  imageFailures : Nat
  done : Bool
  deriving DecidableEq, Repr

/-- Modelled from the spec: the attempts of every preset against one
decoded image, with k the 1-based index of the first preset in the list:
each successful pair contributes its destination name, each failed pair is
counted and skipped. -/
def fileOutputs (eps : ℚ) (dir file : String) (img : LinearImage) :
    List Preset → Nat → List String × Nat
  | [], _ => ([], 0)
  | p :: ps, k =>
    let rest := fileOutputs eps dir file img ps (k + 1)
    match processPair eps img p with
    | Except.ok _ =>
      (outputName dir file k (presetStrings p).1 (presetStrings p).2 "jpg"
        :: rest.1, rest.2)
    | Except.error _ => (rest.1, rest.2 + 1)

/-- Modelled from the spec: the batch preset driver: every file is decoded;
a decode failure is logged and skipped without aborting; a decoded image
is attempted against every preset; the terminal Done state is reached once
every (file, preset) pair has been attempted. -/
def batchRun (eps : ℚ) (decode : String → Option LinearImage)
    (presets : List Preset) (dir : String) : List String → BatchResult
  | [] => ⟨[], 0, 0, true⟩
  | f :: fs =>
    let rest := batchRun eps decode presets dir fs
    match decode f with
    | none => ⟨rest.outputs, rest.decodeFailures + 1, rest.imageFailures, rest.done⟩
    | some img =>
      let fo := fileOutputs eps dir f img presets 1
      ⟨fo.1 ++ rest.outputs, rest.decodeFailures, rest.imageFailures + fo.2, rest.done⟩

/-- Modelled from the spec: the shadow-lift half of the base-compression
curve, in log domain with black level B and mid-tone anchor m: the
normalized position of x between black and the anchor is raised to the
exponent 1 over shadow gamma (gamma 1 is a no-op, gamma above 1 lifts
shadows), then mapped back; the clamp at 0 extends the curve constantly
below the black level. -/
noncomputable def shadowLift (gamma B m x : ℝ) : ℝ :=
  B + (m - B) * (max 0 ((x - B) / (m - B))) ^ (1 / gamma)

/-- Modelled from the spec: the highlight half of the base-compression
curve: a soft-knee roll-off above the mid-tone anchor m whose strength
grows with the stops parameter s, strictly monotonic and asymptotically
approaching, but never reaching, the maximum displayable log-luminance
M. -/
noncomputable def softKnee (s m M x : ℝ) : ℝ :=
  M - (M - m) ^ 2 / ((1 + s) * max 0 (x - m) + (M - m))

/-- Modelled from the spec: the combined base-compression curve of
compress_base: shadow lift below the mid-tone anchor, soft-knee highlight
compression above it. -/
noncomputable def compress_base (gamma s B m M x : ℝ) : ℝ :=
  if x ≤ m then shadowLift gamma B m x else softKnee s m M x

/-- Modelled from the spec: log-luminance after the epsilon floor, the
quantity the decomposer separates into base and detail. -/
noncomputable def logLum (eps : ℝ) (L : ℤ × ℤ → ℝ) (q : ℤ × ℤ) : ℝ :=
  Real.log (max (L q) eps)

/-- The square window of offsets within the smoothing radius. -/
def window (r : ℕ) : Finset (ℤ × ℤ) :=
  Finset.Icc (-(r : ℤ)) (r : ℤ) ×ˢ Finset.Icc (-(r : ℤ)) (r : ℤ)

/-- Modelled from the spec: the edge-aware smoothing weight between two
pixels: a spatial Gaussian falloff times an intensity-similarity Gaussian
falloff, so contributions are weighted by local intensity similarity and
not purely by spatial distance. -/
noncomputable def bilatWeight (sigS sigR : ℝ) (l : ℤ × ℤ → ℝ)
    (q q2 : ℤ × ℤ) : ℝ :=
  Real.exp (-(((q.1 - q2.1 : ℤ) : ℝ) ^ 2 + ((q.2 - q2.2 : ℤ) : ℝ) ^ 2)
      / (2 * sigS ^ 2)) *
    Real.exp (-(l q - l q2) ^ 2 / (2 * sigR ^ 2))

/-- Modelled from the spec: the BaseLayer: the edge-aware weighted average
of log-luminance over the window of the given radius. -/
noncomputable def baseLayer (eps sigS sigR : ℝ) (r : ℕ) (L : ℤ × ℤ → ℝ)
    (q : ℤ × ℤ) : ℝ :=
  (∑ d ∈ window r,
      bilatWeight sigS sigR (logLum eps L) q (q.1 + d.1, q.2 + d.2) *
        logLum eps L (q.1 + d.1, q.2 + d.2)) /
    (∑ d ∈ window r,
      bilatWeight sigS sigR (logLum eps L) q (q.1 + d.1, q.2 + d.2))

/-- Modelled from the spec: the DetailLayer is the log-domain residual:
log-luminance minus the base layer. -/
noncomputable def detailLayer (eps sigS sigR : ℝ) (r : ℕ) (L : ℤ × ℤ → ℝ)
    (q : ℤ × ℤ) : ℝ :=
  logLum eps L q - baseLayer eps sigS sigR r L q

/-- Modelled from the spec: decompose returns the base and detail layers
for a luminance field and a smoothing radius. -/
noncomputable def decompose (eps sigS sigR : ℝ) (r : ℕ) (L : ℤ × ℤ → ℝ) :
    (ℤ × ℤ → ℝ) × (ℤ × ℤ → ℝ) :=
  (baseLayer eps sigS sigR r L, detailLayer eps sigS sigR r L)

/-- Modelled from the spec: the internal constants of the tone curve
engine: black level, mid-tone anchor and maximum displayable value in log
domain. -/
noncomputable def blackLevel : ℝ := -10

noncomputable def midAnchor : ℝ := 0

noncomputable def displayCeil : ℝ := 1

/-- Modelled from the spec: the tone curve a preset applies to the base
layer: the minimal baseline is the identity (shadow lift and highlight
compression disabled), the toned presets apply the base-compression
curve with their parameters. -/
noncomputable def applyPreset : Preset → ℝ → ℝ
  | Preset.minimal => fun x => x
  | Preset.toned sg st =>
    compress_base (sg : ℝ) (st : ℝ) blackLevel midAnchor displayCeil

/-- A request whose image url is a path the batch driver produces: well
formed in every other respect. -/
def reqC1 : SubmitRequest :=
  ⟨outputName "processed_images" "a0304-dgw_137.dng" 2 "1.15" "0.50" "jpg",
    some 4, some 4, 30, "Female", "p@e.com", "Regular person", "Normal",
    none, "No", "United States", "Monitor", "Dim"⟩

/-- A fully validated request whose realism rating 6 is outside the CHECK
range of the image_ratings table. -/
def req500 : SubmitRequest :=
  ⟨"images/a_sharpen_20.jpg", some 6, some 3, 30, "Female", "u@v.w",
    "Regular person", "Normal", none, "No", "Canada", "Monitor", "Bright"⟩

/-- A request whose image url carries no sharpening suffix. -/
def req400 : SubmitRequest :=
  ⟨"images/plain.jpg", some 4, some 4, 30, "Female", "u@v.w",
    "Regular person", "Normal", none, "No", "Canada", "Monitor", "Bright"⟩

/-- A well-formed one-pixel source image. -/
def demoImg : LinearImage := ⟨1, 1, [⟨1, 1, 1⟩]⟩

/-- A degenerate (zero-area) source image. -/
def degenImg : LinearImage := ⟨0, 0, []⟩

/-- A decoder for which exactly the file bad.dng fails to decode. -/
def demoDecode : String → Option LinearImage :=
  fun f => if f = "bad.dng" then none else some demoImg

/-- A decoder that decodes degen.dng to the degenerate image and
everything else to the good image. -/
def demoDecode2 : String → Option LinearImage :=
  fun f => if f = "degen.dng" then some degenImg else some demoImg

/-- The shadow half of the curve is monotone. -/
lemma shadowLift_mono {gamma B m : ℝ} (hg : 0 < gamma) (hBm : B < m)
    {x y : ℝ} (hxy : x ≤ y) :
    shadowLift gamma B m x ≤ shadowLift gamma B m y := by
  have hmB : (0:ℝ) < m - B := sub_pos.mpr hBm
  have hp : (0:ℝ) < 1 / gamma := by positivity
  have ht : max 0 ((x - B) / (m - B)) ≤ max 0 ((y - B) / (m - B)) := by
    have : (x - B) / (m - B) ≤ (y - B) / (m - B) := by gcongr
    exact max_le_max le_rfl this
  have hx0 : (0:ℝ) ≤ max 0 ((x - B) / (m - B)) := le_max_left 0 _
  have hr := Real.rpow_le_rpow hx0 ht hp.le
  unfold shadowLift
  have := mul_le_mul_of_nonneg_left hr hmB.le
  linarith

/-- Below the anchor the shadow half stays at or below the anchor. -/
lemma shadowLift_le_anchor {gamma B m : ℝ} (hg : 0 < gamma) (hBm : B < m)
    {x : ℝ} (hx : x ≤ m) : shadowLift gamma B m x ≤ m := by
  have hmB : (0:ℝ) < m - B := sub_pos.mpr hBm
  have hp : (0:ℝ) < 1 / gamma := by positivity
  have ht1 : max 0 ((x - B) / (m - B)) ≤ 1 := by
    refine max_le zero_le_one ?_
    rw [div_le_one hmB]
    linarith
  have hx0 : (0:ℝ) ≤ max 0 ((x - B) / (m - B)) := le_max_left 0 _
  have hr : (max 0 ((x - B) / (m - B))) ^ (1 / gamma) ≤ 1 :=
    Real.rpow_le_one hx0 ht1 hp.le
  unfold shadowLift
  have := mul_le_mul_of_nonneg_left hr hmB.le
  linarith

/-- The shadow half takes the value m at the anchor. -/
lemma shadowLift_anchor {gamma B m : ℝ} (hBm : B < m) :
    shadowLift gamma B m m = m := by
  have hmB : (m - B) ≠ 0 := ne_of_gt (sub_pos.mpr hBm)
  unfold shadowLift
  rw [div_self hmB, max_eq_right zero_le_one, Real.one_rpow]
  ring

/-- The knee denominator is at least the displayable headroom. -/
lemma kneeDen_ge {s : ℝ} (m M : ℝ) (hs : 0 ≤ s) (x : ℝ) :
    M - m ≤ (1 + s) * max 0 (x - m) + (M - m) := by
  have h1 : (0:ℝ) ≤ (1 + s) * max 0 (x - m) :=
    mul_nonneg (by linarith) (le_max_left 0 _)
  linarith

/-- The knee denominator is positive. -/
lemma kneeDen_pos {s m M : ℝ} (hs : 0 ≤ s) (hmM : m < M) (x : ℝ) :
    0 < (1 + s) * max 0 (x - m) + (M - m) :=
  lt_of_lt_of_le (sub_pos.mpr hmM) (kneeDen_ge m M hs x)

/-- The knee half never drops below the anchor. -/
lemma softKnee_ge_anchor {s m M : ℝ} (hs : 0 ≤ s) (hmM : m < M) (x : ℝ) :
    m ≤ softKnee s m M x := by
  have hD := kneeDen_pos hs hmM x
  have hDg := kneeDen_ge m M hs x
  have hMm : (0:ℝ) < M - m := sub_pos.mpr hmM
  have hq : (M - m) ^ 2 / ((1 + s) * max 0 (x - m) + (M - m)) ≤ M - m := by
    rw [div_le_iff₀ hD]
    nlinarith
  unfold softKnee
  linarith

/-- The knee half stays strictly below the displayable maximum. -/
lemma softKnee_lt_max {s m M : ℝ} (hs : 0 ≤ s) (hmM : m < M) (x : ℝ) :
    softKnee s m M x < M := by
  have hD := kneeDen_pos hs hmM x
  have hMm : (0:ℝ) < M - m := sub_pos.mpr hmM
  have hq : 0 < (M - m) ^ 2 / ((1 + s) * max 0 (x - m) + (M - m)) :=
    div_pos (by positivity) hD
  unfold softKnee
  linarith

/-- The knee half is monotone. -/
lemma softKnee_mono {s m M : ℝ} (hs : 0 ≤ s) (hmM : m < M)
    {x y : ℝ} (hxy : x ≤ y) : softKnee s m M x ≤ softKnee s m M y := by
  have hDx := kneeDen_pos hs hmM x
  have hMm : (0:ℝ) < M - m := sub_pos.mpr hmM
  have hden : (1 + s) * max 0 (x - m) + (M - m) ≤
      (1 + s) * max 0 (y - m) + (M - m) := by
    have : max 0 (x - m) ≤ max 0 (y - m) :=
      max_le_max le_rfl (by linarith)
    nlinarith
  have hq : (M - m) ^ 2 / ((1 + s) * max 0 (y - m) + (M - m)) ≤
      (M - m) ^ 2 / ((1 + s) * max 0 (x - m) + (M - m)) := by
    gcongr

  unfold softKnee
  linarith

/-- The knee half takes the value m at the anchor. -/
lemma softKnee_anchor {s m M : ℝ} (hmM : m < M) :
    softKnee s m M m = m := by
  have hMm : (M - m) ≠ 0 := ne_of_gt (sub_pos.mpr hmM)
  unfold softKnee
  rw [sub_self, max_eq_left le_rfl, mul_zero, zero_add, sq,
    mul_div_assoc, div_self hMm, mul_one]
  ring

/-- The shadow half is continuous. -/
lemma shadowLift_continuous {gamma B m : ℝ} (hg : 0 < gamma) :
    Continuous (shadowLift gamma B m) := by
  have hp : (0:ℝ) ≤ 1 / gamma := by positivity
  have h1 : Continuous fun x : ℝ => (x - B) / (m - B) :=
    (continuous_id.sub continuous_const).div_const _
  have h2 : Continuous fun x : ℝ => max 0 ((x - B) / (m - B)) :=
    continuous_const.max h1
  have h3 : Continuous fun x : ℝ =>
      (max 0 ((x - B) / (m - B))) ^ (1 / gamma) :=
    h2.rpow_const (fun x => Or.inr hp)
  exact continuous_const.add (continuous_const.mul h3)

/-- The knee half is continuous. -/
lemma softKnee_continuous {s m M : ℝ} (hs : 0 ≤ s) (hmM : m < M) :
    Continuous (softKnee s m M) := by
  have hden : Continuous fun x : ℝ => (1 + s) * max 0 (x - m) + (M - m) :=
    (continuous_const.mul
      (continuous_const.max (continuous_id.sub continuous_const))).add
      continuous_const
  have hdiv : Continuous fun x : ℝ =>
      (M - m) ^ 2 / ((1 + s) * max 0 (x - m) + (M - m)) :=
    continuous_const.div hden (fun x => ne_of_gt (kneeDen_pos hs hmM x))
  exact continuous_const.sub hdiv

/-- The two halves agree at the mid-tone anchor. -/
lemma compress_base_junction {gamma s B m M : ℝ} (hBm : B < m) (hmM : m < M) :
    shadowLift gamma B m m = softKnee s m M m := by
  rw [shadowLift_anchor hBm, softKnee_anchor hmM]

/-- The base-compression curve is monotone non-decreasing on its whole
domain, including across the anchor. -/
lemma compress_base_mono {gamma s B m M : ℝ} (hg : 0 < gamma) (hs : 0 ≤ s)
    (hBm : B < m) (hmM : m < M) : Monotone (compress_base gamma s B m M) := by
  intro x y hxy
  unfold compress_base
  by_cases hx : x ≤ m
  · by_cases hy : y ≤ m
    · rw [if_pos hx, if_pos hy]
      exact shadowLift_mono hg hBm hxy
    · rw [if_pos hx, if_neg hy]
      exact le_trans (shadowLift_le_anchor hg hBm hx)
        (softKnee_ge_anchor hs hmM y)
  · have hy : ¬ y ≤ m := fun h => hx (le_trans hxy h)
    rw [if_neg hx, if_neg hy]
    exact softKnee_mono hs hmM hxy

/-- The base-compression curve is continuous, in particular at the
anchor. -/
lemma compress_base_continuous {gamma s B m M : ℝ} (hg : 0 < gamma)
    (hs : 0 ≤ s) (hBm : B < m) (hmM : m < M) :
    Continuous (compress_base gamma s B m M) := by
  unfold compress_base
  exact Continuous.if_le (shadowLift_continuous hg)
    (softKnee_continuous hs hmM) continuous_id continuous_const
    (fun x hx => by rw [hx]; exact compress_base_junction hBm hmM)

/-- The output of the base-compression curve is strictly below the maximum
displayable log-luminance everywhere. -/
lemma compress_base_lt_max {gamma s B m M : ℝ} (hg : 0 < gamma) (hs : 0 ≤ s)
    (hBm : B < m) (hmM : m < M) (x : ℝ) : compress_base gamma s B m M x < M := by
  unfold compress_base
  by_cases hx : x ≤ m
  · rw [if_pos hx]
    exact lt_of_le_of_lt (shadowLift_le_anchor hg hBm hx) hmM
  · rw [if_neg hx]
    exact softKnee_lt_max hs hmM x

/-- The DO UPDATE arm never changes the id of a user row. -/
lemma updateUser_id (req : SubmitRequest) (v : UserRow) :
    (updateUser req v).id = v.id := by
  unfold updateUser
  split <;> rfl

/-- The user upsert touches only the users table. -/
lemma upsertUser_imageRatings (db : Db) (req : SubmitRequest) :
    (upsertUser db req).1.imageRatings = db.imageRatings := by
  cases hfind : db.users.find? (fun u => u.email == req.email) with
  | none => simp [upsertUser, hfind]
  | some u => simp [upsertUser, hfind]

/-- The id returned by the upsert belongs to a row of the resulting users
table. -/
lemma upsertUser_hasId (db : Db) (req : SubmitRequest) :
    ∃ u ∈ (upsertUser db req).1.users, u.id = (upsertUser db req).2 := by
  cases hfind : db.users.find? (fun u => u.email == req.email) with
  | none =>
    refine ⟨⟨db.nextUserId, req.email, req.gender, req.age,
      req.selfDescription, req.visionStatus, req.visionDetails,
      req.colorBlind = "Yes", req.countryOfOrigin, req.displayType,
      req.lighting⟩, ?_, ?_⟩
    · simp [upsertUser, hfind]
    · simp [upsertUser, hfind]
  | some u =>
    have hmem := List.mem_of_find?_eq_some hfind
    refine ⟨updateUser req u, ?_, ?_⟩
    · simp only [upsertUser, hfind]
      exact List.mem_map_of_mem _ hmem
    · simp only [upsertUser, hfind]
      exact updateUser_id req u

/-- What a successful image_ratings insert does to the database. -/
lemma insertImageRating_eq {d : Db} {row : ImageRatingRow} {d2 : Db}
    (h : insertImageRating d row = some d2) :
    d2.imageRatings = d.imageRatings ++ [row] ∧ d2.users = d.users := by
  unfold insertImageRating at h
  split_ifs at h
  · cases h
    exact ⟨rfl, rfl⟩

/-- A successful image_ratings insert implies the CHECK constraints hold. -/
lemma insertImageRating_isSome {d : Db} {row : ImageRatingRow} :
    (insertImageRating d row).isSome ↔
      (1 ≤ row.realism ∧ row.realism ≤ 5 ∧ 1 ≤ row.quality ∧ row.quality ≤ 5) := by
  unfold insertImageRating
  split_ifs with h <;> simp [h]

/-- Core channel estimate for the split/recombine round trip: a channel
value c with weight w inside luminance Y, divided by the floored
luminance and multiplied back by Y, moves by at most 4 eps; when the
luminance is at or above the floor the channel is reproduced exactly. -/
lemma chan_bound (w c Y eps : ℚ) (hw : 1/16 ≤ w) (heps : 0 < eps)
    (hc : 0 ≤ c) (hY : 0 ≤ Y) (hwc : w * c ≤ Y) :
    |c / max Y eps * Y - c| ≤ 4 * eps ∧
      (eps ≤ Y → c / max Y eps * Y = c) := by
  by_cases hYe : eps ≤ Y
  · have hmax : max Y eps = Y := max_eq_left hYe
    have hY0 : (0:ℚ) < Y := lt_of_lt_of_le heps hYe
    rw [hmax, div_mul_cancel₀ _ (ne_of_gt hY0)]
    constructor
    · simp only [sub_self, abs_zero]
      positivity
    · intro _
      rfl
  · push_neg at hYe
    have hmax : max Y eps = eps := max_eq_right hYe.le
    rw [hmax]
    constructor
    · have h16 : c ≤ 16 * Y := by nlinarith
      have hle : c / eps * Y ≤ c := by
        rw [div_mul_eq_mul_div, div_le_iff₀ heps]
        nlinarith
      rw [abs_sub_comm, abs_of_nonneg (sub_nonneg.mpr hle)]
      have key : (c - c / eps * Y) * eps = c * (eps - Y) := by
        field_simp
        ring
      have h2 : c * (eps - Y) ≤ 4 * eps * eps := by
        nlinarith [sq_nonneg (eps - 2 * Y),
          mul_le_mul_of_nonneg_right h16 (show (0:ℚ) ≤ eps - Y by linarith)]
      nlinarith [key, h2]
    · intro h
      exact absurd h (not_le.mpr hYe)

/-- Luminance is non-negative on a non-negative pixel. -/
lemma lum_nonneg {p : Pixel} (hr : 0 ≤ p.r) (hg : 0 ≤ p.g) (hb : 0 ≤ p.b) :
    0 ≤ lum p := by
  unfold lum wr wg wb
  positivity

/-- Each weighted channel is at most the luminance. -/
lemma wchan_le_lum_r {p : Pixel} (hg : 0 ≤ p.g) (hb : 0 ≤ p.b) :
    wr * p.r ≤ lum p := by
  unfold lum wr wg wb
  nlinarith

lemma wchan_le_lum_g {p : Pixel} (hr : 0 ≤ p.r) (hb : 0 ≤ p.b) :
    wg * p.g ≤ lum p := by
  unfold lum wr wg wb
  nlinarith

lemma wchan_le_lum_b {p : Pixel} (hr : 0 ≤ p.r) (hg : 0 ≤ p.g) :
    wb * p.b ≤ lum p := by
  unfold lum wr wg wb
  nlinarith

/-- Round-trip bound and exactness for one pixel. -/
lemma roundTripPixel_spec (eps : ℚ) (p : Pixel) (heps : 0 < eps)
    (hr : 0 ≤ p.r) (hg : 0 ≤ p.g) (hb : 0 ≤ p.b) :
    |(roundTripPixel eps p).r - p.r| ≤ 4 * eps ∧
    |(roundTripPixel eps p).g - p.g| ≤ 4 * eps ∧
    |(roundTripPixel eps p).b - p.b| ≤ 4 * eps ∧
    (eps ≤ lum p → roundTripPixel eps p = p) := by
  have hY := lum_nonneg hr hg hb
  have hwr : (1:ℚ)/16 ≤ wr := by unfold wr; norm_num
  have hwg : (1:ℚ)/16 ≤ wg := by unfold wg; norm_num
  have hwb : (1:ℚ)/16 ≤ wb := by unfold wb; norm_num
  have hcr := chan_bound wr p.r (lum p) eps hwr heps hr hY (wchan_le_lum_r hg hb)
  have hcg := chan_bound wg p.g (lum p) eps hwg heps hg hY (wchan_le_lum_g hr hb)
  have hcb := chan_bound wb p.b (lum p) eps hwb heps hb hY (wchan_le_lum_b hr hg)
  have hru : (roundTripPixel eps p).r = p.r / max (lum p) eps * lum p := rfl
  have hgu : (roundTripPixel eps p).g = p.g / max (lum p) eps * lum p := rfl
  have hbu : (roundTripPixel eps p).b = p.b / max (lum p) eps * lum p := rfl
  refine ⟨by rw [hru]; exact hcr.1, by rw [hgu]; exact hcg.1,
    by rw [hbu]; exact hcb.1, fun h => ?_⟩
  cases p with
  | mk r g b =>
    simp only [roundTripPixel, recombinePixel, chromaPixel, Pixel.mk.injEq]
    exact ⟨hcr.2 h, hcg.2 h, hcb.2 h⟩

/-- Recombining the two fields produced by split is the pixelwise round
trip. -/
lemma recombine_map (eps : ℚ) :
    ∀ l : List Pixel,
      recombineImage (l.map lum) (l.map (chromaPixel eps)) =
        l.map (roundTripPixel eps)
  | [] => rfl
  | p :: t => by
    simp only [List.map_cons, recombineImage, List.zipWith_cons_cons]
    exact congrArg _ (recombine_map eps t)

/-- A non-degenerate image succeeds for every preset: one output name per
preset, no failures. -/
lemma fileOutputs_good (eps : ℚ) (dir file : String) (img : LinearImage)
    (hw : img.width ≠ 0) (hh : img.height ≠ 0) :
    ∀ (ps : List Preset) (k : Nat),
      (fileOutputs eps dir file img ps k).1.length = ps.length ∧
      (fileOutputs eps dir file img ps k).2 = 0
  | [], _ => ⟨rfl, rfl⟩
  | p :: ps, k => by
    have ih := fileOutputs_good eps dir file img hw hh ps (k + 1)
    have hok : processPair eps img p =
        Except.ok (recombineImage (img.data.map lum)
          (img.data.map (chromaPixel eps))) := by
      simp [processPair, splitImage, hw, hh]
    simp [fileOutputs, hok, ih.1, ih.2]

/-- A degenerate image fails for every preset: no outputs, one counted
failure per preset. -/
lemma fileOutputs_degen (eps : ℚ) (dir file : String) (img : LinearImage)
    (hdeg : img.width = 0 ∨ img.height = 0) :
    ∀ (ps : List Preset) (k : Nat),
      (fileOutputs eps dir file img ps k).1 = [] ∧
      (fileOutputs eps dir file img ps k).2 = ps.length
  | [], _ => ⟨rfl, rfl⟩
  | p :: ps, k => by
    have ih := fileOutputs_degen eps dir file img hdeg ps (k + 1)
    have herr : processPair eps img p =
        Except.error ImgError.DegenerateImageError := by
      simp [processPair, splitImage, hdeg]
    simp [fileOutputs, herr, ih.1, ih.2]

/-- The driver always reaches the terminal Done state. -/
lemma batchRun_done (eps : ℚ) (decode : String → Option LinearImage)
    (presets : List Preset) (dir : String) :
    ∀ files, (batchRun eps decode presets dir files).done = true
  | [] => rfl
  | f :: fs => by
    have ih := batchRun_done eps decode presets dir fs
    cases hdf : decode f <;> simp [batchRun, hdf, ih]

/-- Output and decode-failure counts of a batch run when every decodable
image is non-degenerate. -/
lemma batchRun_counts (eps : ℚ) (decode : String → Option LinearImage)
    (presets : List Preset) (dir : String)
    (hgood : ∀ f img, decode f = some img → img.width ≠ 0 ∧ img.height ≠ 0) :
    ∀ files,
      (batchRun eps decode presets dir files).outputs.length =
        (files.countP (fun f => (decode f).isSome)) * presets.length ∧
      (batchRun eps decode presets dir files).decodeFailures =
        files.countP (fun f => (decode f).isNone)
  | [] => ⟨by simp [batchRun], by simp [batchRun]⟩
  | f :: fs => by
    have ih := batchRun_counts eps decode presets dir hgood fs
    cases hdf : decode f with
    | none =>
      simp [batchRun, hdf, List.countP_cons, ih.1, ih.2]
    | some img =>
      have hgi := hgood f img hdf
      have hfo := fileOutputs_good eps dir f img hgi.1 hgi.2 presets 1
      simp only [batchRun, hdf, List.countP_cons, List.length_append, hfo.1,
        ih.1, ih.2]
      constructor
      · simp
        ring
      · simp [hdf]

/-- The predicate counts of decodable and undecodable files add to the
batch size. -/
lemma countP_some_add_none (decode : String → Option LinearImage) :
    ∀ files : List String,
      files.countP (fun f => (decode f).isSome) +
        files.countP (fun f => (decode f).isNone) = files.length
  | [] => rfl
  | f :: fs => by
    have ih := countP_some_add_none decode fs
    cases hdf : decode f <;> simp [List.countP_cons, hdf] <;> omega

/-- A batch run distributes over list append: files are processed
independently, so the results of two sub-batches combine additively. -/
lemma batchRun_append (eps : ℚ) (decode : String → Option LinearImage)
    (presets : List Preset) (dir : String) :
    ∀ xs ys : List String,
      (batchRun eps decode presets dir (xs ++ ys)).outputs =
        (batchRun eps decode presets dir xs).outputs ++
          (batchRun eps decode presets dir ys).outputs ∧
      (batchRun eps decode presets dir (xs ++ ys)).decodeFailures =
        (batchRun eps decode presets dir xs).decodeFailures +
          (batchRun eps decode presets dir ys).decodeFailures ∧
      (batchRun eps decode presets dir (xs ++ ys)).imageFailures =
        (batchRun eps decode presets dir xs).imageFailures +
          (batchRun eps decode presets dir ys).imageFailures
  | [], ys => by simp [batchRun]
  | x :: xs, ys => by
    have ih := batchRun_append eps decode presets dir xs ys
    cases hdf : decode x <;>
      simp [batchRun, hdf, ih.1, ih.2.1, ih.2.2] <;> omega

/-- Both handlers answer 400 and leave the database untouched when the
image url carries no sharpening suffix. -/
lemma submit_no_sharpen (req : SubmitRequest) (db : Db)
    (h : findSharpenStr req.imageUrl = none) :
    webappSubmit req db = (400, db) ∧ browserSubmit req db = (400, db) := by
  rcases hre : req.realism with _ | re <;>
    rcases hqu : req.quality with _ | qu <;>
      simp [webappSubmit, browserSubmit, h, hre, hqu]

/-- What the webapp handler does on a request that passes its validation:
the transaction commits both writes when the rating insert satisfies the
CHECK constraints, otherwise it rolls back and answers 500. -/
lemma webappSubmit_valid_eq (req : SubmitRequest) (db : Db) {re qu : Int}
    {sh : Nat} (hre : req.realism = some re) (hqu : req.quality = some qu)
    (hsh : findSharpenStr req.imageUrl = some sh)
    (hv : ¬(req.imageUrl = "" ∨ req.age = 0 ∨ req.gender = "" ∨ req.email = "")) :
    webappSubmit req db =
      if 1 ≤ re ∧ re ≤ 5 ∧ 1 ≤ qu ∧ qu ≤ 5 then
        (200, { (upsertUser db req).1 with imageRatings :=
            (upsertUser db req).1.imageRatings ++
              [⟨(upsertUser db req).2, req.imageUrl, sh, re, qu⟩] })
      else (500, db) := by
  by_cases hrange : 1 ≤ re ∧ re ≤ 5 ∧ 1 ≤ qu ∧ qu ≤ 5
  · have hins : insertImageRating (upsertUser db req).1
        ⟨(upsertUser db req).2, req.imageUrl, sh, re, qu⟩ =
        some { (upsertUser db req).1 with imageRatings :=
          (upsertUser db req).1.imageRatings ++
            [⟨(upsertUser db req).2, req.imageUrl, sh, re, qu⟩] } := by
      unfold insertImageRating
      rw [if_pos hrange]
    simp [webappSubmit, hre, hqu, hsh, hv, hins, hrange]
  · have hins : insertImageRating (upsertUser db req).1
        ⟨(upsertUser db req).2, req.imageUrl, sh, re, qu⟩ = none := by
      unfold insertImageRating
      rw [if_neg hrange]
    simp [webappSubmit, hre, hqu, hsh, hv, hins, hrange]

/-- C2: the batch driver's preset table is a fixed ordered list of exactly
six entries, preset 1 being the minimal baseline whose tone curve is the
identity, and presets 2 through 6 carrying the (shadow gamma, stops) pairs
(1.15, 0.5), (1.25, 1.0), (1.5, 1.5), (1.75, 1.75), (2.0, 2.0) in that
order; the table is a single immutable constant. -/
theorem C2_preset_table :
    presetTable.length = 6 ∧
    presetTable = [Preset.minimal, Preset.toned 1.15 0.5,
      Preset.toned 1.25 1.0, Preset.toned 1.5 1.5, Preset.toned 1.75 1.75,
      Preset.toned 2.0 2.0] ∧
    applyPreset Preset.minimal = id :=
  ⟨rfl, rfl, rfl⟩

/-- C3: for every valid choice of tone parameters (positive shadow gamma,
stops in the preset range) the base-compression curve is monotone
non-decreasing over its entire log-domain input range, continuous (in
particular with no discontinuity at the mid-tone anchor), and its output
is strictly below the maximum displayable log-luminance for every
input. -/
theorem C3_tone_curve_props (gamma s B m M : ℝ) (hg : 0 < gamma)
    (hs0 : 0 ≤ s) (_hs2 : s ≤ 2) (hBm : B < m) (hmM : m < M) :
    Monotone (compress_base gamma s B m M) ∧
    Continuous (compress_base gamma s B m M) ∧
    ∀ x, compress_base gamma s B m M x < M :=
  ⟨compress_base_mono hg hs0 hBm hmM,
    compress_base_continuous hg hs0 hBm hmM,
    compress_base_lt_max hg hs0 hBm hmM⟩

/-- Witness for C3 at the concrete parameters gamma 1, stops 0, black
level 0, anchor 1, ceiling 2. -/
theorem C3_tone_curve_props_witness :
    Monotone (compress_base 1 0 0 1 2) ∧
    Continuous (compress_base 1 0 0 1 2) ∧
    ∀ x, compress_base 1 0 0 1 2 x < 2 :=
  C3_tone_curve_props 1 0 0 1 2 zero_lt_one le_rfl zero_le_two zero_lt_one
    one_lt_two

/-- C5: for every luminance field and smoothing radius the base and detail
layers returned by decompose add up, at every pixel, to the epsilon-floored
log-luminance, and decompose is deterministic: identical input and radius
give identical output. -/
theorem C5_decompose_additivity (eps sigS sigR : ℝ) (r : ℕ)
    (L : ℤ × ℤ → ℝ) :
    (∀ q : ℤ × ℤ,
      (decompose eps sigS sigR r L).1 q + (decompose eps sigS sigR r L).2 q =
        Real.log (max (L q) eps)) ∧
    (∀ (L2 : ℤ × ℤ → ℝ) (r2 : ℕ), L = L2 → r = r2 →
      decompose eps sigS sigR r L = decompose eps sigS sigR r2 L2) := by
  constructor
  · intro q
    simp [decompose, detailLayer, logLum]
  · intro L2 r2 hL hr
    rw [hL, hr]

/-- Witness for C5 at a concrete constant field and radius. -/
theorem C5_decompose_additivity_witness :
    decompose 1 1 1 1 (fun _ => 2) = decompose 1 1 1 1 (fun _ => 2) :=
  (C5_decompose_additivity 1 1 1 1 (fun _ => 2)).2 (fun _ => 2) 1 rfl rfl

/-- C9: a submit-rating request whose image url contains no substring of
the form sharpen followed by digits is answered 400 by both server
variants and writes nothing to the database. -/
theorem C9_sharpen_required (req : SubmitRequest) (db : Db)
    (h : findSharpenStr req.imageUrl = none) :
    webappSubmit req db = (400, db) ∧ browserSubmit req db = (400, db) :=
  submit_no_sharpen req db h

/-- Witness for C9 at a concrete url without a sharpening suffix. -/
theorem C9_sharpen_required_witness :
    webappSubmit req400 emptyDb = (400, emptyDb) ∧
    browserSubmit req400 emptyDb = (400, emptyDb) :=
  C9_sharpen_required req400 emptyDb (by decide)

/-- C10: the image_ratings insert succeeds exactly when realism and
quality lie in 1..5 (the CHECK constraints), while the browser variant's
ratings insert applies no such constraint: any validated request is
persisted verbatim, including out-of-range rating values. -/
theorem C10_rating_checks :
    (∀ (db : Db) (row : ImageRatingRow),
      (insertImageRating db row).isSome ↔
        (1 ≤ row.realism ∧ row.realism ≤ 5 ∧ 1 ≤ row.quality ∧
          row.quality ≤ 5)) ∧
    (∀ (db : Db) (req : SubmitRequest) (re qu : Int) (sh : Nat),
      req.realism = some re → req.quality = some qu →
      findSharpenStr req.imageUrl = some sh →
      ¬(req.imageUrl = "" ∨ req.age = 0 ∨ req.gender = "" ∨ req.email = "") →
      browserSubmit req db = (200, { db with ratings := db.ratings ++
        [⟨req.imageUrl, re, qu, sh, req.age, req.gender, req.email⟩] })) := by
  constructor
  · intro db row
    exact insertImageRating_isSome
  · intro db req re qu sh hre hqu hsh hv
    simp [browserSubmit, hre, hqu, hsh, hv]

/-- Witness for C10: the browser variant persists a realism rating of 6,
which the image_ratings CHECK constraints would reject. -/
theorem C10_rating_checks_witness :
    browserSubmit req500 emptyDb = (200, { emptyDb with ratings :=
      emptyDb.ratings ++ [⟨req500.imageUrl, 6, 3, 20, req500.age,
        req500.gender, req500.email⟩] }) :=
  C10_rating_checks.2 emptyDb req500 6 3 20 rfl rfl (by decide) (by decide)

/-- C6: on a batch of five source images of which exactly one fails to
decode, the driver produces one successful output per good image per
preset (4 times the table size), reports exactly one decode failure, and
reaches the terminal Done state without aborting. -/
theorem C6_failure_isolation (eps : ℚ) (decode : String → Option LinearImage)
    (dir : String) (files : List String) (hlen : files.length = 5)
    (hbad : files.countP (fun f => (decode f).isNone) = 1)
    (hgood : ∀ f img, decode f = some img → img.width ≠ 0 ∧ img.height ≠ 0) :
    (batchRun eps decode presetTable dir files).outputs.length =
      4 * presetTable.length ∧
    (batchRun eps decode presetTable dir files).decodeFailures = 1 ∧
    (batchRun eps decode presetTable dir files).done = true := by
  have hc := batchRun_counts eps decode presetTable dir hgood files
  have hsum := countP_some_add_none decode files
  have h4 : files.countP (fun f => (decode f).isSome) = 4 := by omega
  refine ⟨?_, ?_, batchRun_done eps decode presetTable dir files⟩
  · rw [hc.1, h4]
  · rw [hc.2, hbad]

/-- Witness for C6: a concrete five-file batch where only bad.dng fails to
decode. -/
theorem C6_failure_isolation_witness :
    (batchRun 1 demoDecode presetTable "out"
        ["a.dng", "b.dng", "bad.dng", "c.dng", "d.dng"]).outputs.length =
      4 * presetTable.length ∧
    (batchRun 1 demoDecode presetTable "out"
        ["a.dng", "b.dng", "bad.dng", "c.dng", "d.dng"]).decodeFailures = 1 ∧
    (batchRun 1 demoDecode presetTable "out"
        ["a.dng", "b.dng", "bad.dng", "c.dng", "d.dng"]).done = true :=
  C6_failure_isolation 1 demoDecode "out"
    ["a.dng", "b.dng", "bad.dng", "c.dng", "d.dng"] (by decide) (by decide)
    (fun f img h => by
      by_cases hf : f = "bad.dng"
      · simp [demoDecode, hf] at h
      · simp [demoDecode, hf] at h
        cases h
        exact ⟨by decide, by decide⟩)

/-- C7: split fails with DegenerateImageError exactly when the image's
width or height is zero, and such a failure is fatal only for that single
image: a batch containing a degenerate image yields exactly the outputs of
the surrounding files, counts one processing failure per preset for the
degenerate file, and still reaches Done. -/
theorem C7_degenerate_split :
    (∀ (eps : ℚ) (img : LinearImage),
      splitImage eps img = Except.error ImgError.DegenerateImageError ↔
        img.width = 0 ∨ img.height = 0) ∧
    (∀ (eps : ℚ) (decode : String → Option LinearImage)
        (presets : List Preset) (dir : String) (fs1 fs2 : List String)
        (f : String) (img : LinearImage),
      decode f = some img → img.width = 0 ∨ img.height = 0 →
      (batchRun eps decode presets dir (fs1 ++ f :: fs2)).outputs =
          (batchRun eps decode presets dir fs1).outputs ++
            (batchRun eps decode presets dir fs2).outputs ∧
        (batchRun eps decode presets dir (fs1 ++ f :: fs2)).decodeFailures =
          (batchRun eps decode presets dir fs1).decodeFailures +
            (batchRun eps decode presets dir fs2).decodeFailures ∧
        (batchRun eps decode presets dir (fs1 ++ f :: fs2)).imageFailures =
          (batchRun eps decode presets dir fs1).imageFailures +
            presets.length +
            (batchRun eps decode presets dir fs2).imageFailures ∧
        (batchRun eps decode presets dir (fs1 ++ f :: fs2)).done = true) := by
  constructor
  · intro eps img
    unfold splitImage
    split_ifs with h <;> simp [h]
  · intro eps decode presets dir fs1 fs2 f img hdf hdeg
    have happ := batchRun_append eps decode presets dir fs1 (f :: fs2)
    have hfo := fileOutputs_degen eps dir f img hdeg presets 1
    have hco : (batchRun eps decode presets dir (f :: fs2)).outputs =
        (batchRun eps decode presets dir fs2).outputs := by
      simp [batchRun, hdf, hfo.1]
    have hcd : (batchRun eps decode presets dir (f :: fs2)).decodeFailures =
        (batchRun eps decode presets dir fs2).decodeFailures := by
      simp [batchRun, hdf]
    have hci : (batchRun eps decode presets dir (f :: fs2)).imageFailures =
        (batchRun eps decode presets dir fs2).imageFailures +
          presets.length := by
      simp [batchRun, hdf, hfo.2]
    refine ⟨?_, ?_, ?_,
      batchRun_done eps decode presets dir (fs1 ++ f :: fs2)⟩
    · rw [happ.1, hco]
    · rw [happ.2.1, hcd]
    · rw [happ.2.2, hci]
      omega

/-- Witness for C7 at a concrete degenerate image inside a three-file
batch. -/
theorem C7_degenerate_split_witness :
    (splitImage 1 degenImg = Except.error ImgError.DegenerateImageError ↔
      degenImg.width = 0 ∨ degenImg.height = 0) ∧
    ((batchRun 1 demoDecode2 presetTable "out"
          (["g.dng"] ++ "degen.dng" :: ["h.dng"])).outputs =
        (batchRun 1 demoDecode2 presetTable "out" ["g.dng"]).outputs ++
          (batchRun 1 demoDecode2 presetTable "out" ["h.dng"]).outputs ∧
      (batchRun 1 demoDecode2 presetTable "out"
          (["g.dng"] ++ "degen.dng" :: ["h.dng"])).decodeFailures =
        (batchRun 1 demoDecode2 presetTable "out" ["g.dng"]).decodeFailures +
          (batchRun 1 demoDecode2 presetTable "out" ["h.dng"]).decodeFailures ∧
      (batchRun 1 demoDecode2 presetTable "out"
          (["g.dng"] ++ "degen.dng" :: ["h.dng"])).imageFailures =
        (batchRun 1 demoDecode2 presetTable "out" ["g.dng"]).imageFailures +
          presetTable.length +
          (batchRun 1 demoDecode2 presetTable "out" ["h.dng"]).imageFailures ∧
      (batchRun 1 demoDecode2 presetTable "out"
          (["g.dng"] ++ "degen.dng" :: ["h.dng"])).done = true) :=
  ⟨C7_degenerate_split.1 1 degenImg,
    C7_degenerate_split.2 1 demoDecode2 presetTable "out" ["g.dng"] ["h.dng"]
      "degen.dng" degenImg (by decide) (by decide)⟩

/-- C4: recombining the two fields produced by a successful split (with the
luminance passed through unchanged) reproduces the image pixel by pixel:
each channel moves by at most four times the luminance floor, and every
pixel whose luminance is at or above the floor is reproduced exactly. -/
theorem C4_split_recombine_roundtrip (eps : ℚ) (img : LinearImage)
    (lf : List ℚ) (cf : List ChromaPixel) (heps : 0 < eps)
    (hnn : ∀ p ∈ img.data, 0 ≤ p.r ∧ 0 ≤ p.g ∧ 0 ≤ p.b)
    (hsplit : splitImage eps img = Except.ok (lf, cf)) :
    recombineImage lf cf = img.data.map (roundTripPixel eps) ∧
    ∀ p ∈ img.data,
      |(roundTripPixel eps p).r - p.r| ≤ 4 * eps ∧
      |(roundTripPixel eps p).g - p.g| ≤ 4 * eps ∧
      |(roundTripPixel eps p).b - p.b| ≤ 4 * eps ∧
      (eps ≤ lum p → roundTripPixel eps p = p) := by
  unfold splitImage at hsplit
  split_ifs at hsplit with hcond
  injection hsplit with hpair
  have hlf := congrArg Prod.fst hpair
  have hcf := congrArg Prod.snd hpair
  simp only at hlf hcf
  constructor
  · rw [← hlf, ← hcf]
    exact recombine_map eps img.data
  · intro p hp
    obtain ⟨h1, h2, h3⟩ := hnn p hp
    exact roundTripPixel_spec eps p heps h1 h2 h3

/-- Witness for C4 on a concrete one-pixel image. -/
theorem C4_split_recombine_roundtrip_witness :
    recombineImage [1] [⟨1, 1, 1⟩] = demoImg.data.map (roundTripPixel 1) ∧
    ∀ p ∈ demoImg.data,
      |(roundTripPixel 1 p).r - p.r| ≤ 4 * 1 ∧
      |(roundTripPixel 1 p).g - p.g| ≤ 4 * 1 ∧
      |(roundTripPixel 1 p).b - p.b| ≤ 4 * 1 ∧
      (1 ≤ lum p → roundTripPixel 1 p = p) :=
  C4_split_recombine_roundtrip 1 demoImg [1] [⟨1, 1, 1⟩] one_pos
    (by simp [demoImg]) (by with_unfolding_all rfl)

/-- C8: the webapp submit handler is atomic: whenever the response is not
200 the database is unchanged (both the user upsert and the rating insert
are rolled back together); whenever the response is 200 exactly one rating
row was added and its user row is present in the same resulting state; and
when a validated request's rating insert violates the CHECK constraints
(the failing-query case of the model) the response is 500 with the
database unchanged. -/
theorem C8_submit_transaction (req : SubmitRequest) (db : Db) :
    ((webappSubmit req db).1 ≠ 200 → (webappSubmit req db).2 = db) ∧
    ((webappSubmit req db).1 = 200 →
      ∃ row : ImageRatingRow,
        (webappSubmit req db).2.imageRatings = db.imageRatings ++ [row] ∧
        ∃ u ∈ (webappSubmit req db).2.users, u.id = row.userId) ∧
    (∀ (re qu : Int) (sh : Nat), req.realism = some re →
      req.quality = some qu → findSharpenStr req.imageUrl = some sh →
      ¬(req.imageUrl = "" ∨ req.age = 0 ∨ req.gender = "" ∨ req.email = "") →
      ¬(1 ≤ re ∧ re ≤ 5 ∧ 1 ≤ qu ∧ qu ≤ 5) →
      webappSubmit req db = (500, db)) := by
  rcases hre : req.realism with _ | re
  · have h : webappSubmit req db = (400, db) := by
      simp [webappSubmit, hre]
    rw [h]
    refine ⟨fun _ => rfl, fun hX => by simp at hX,
      fun re2 qu2 sh2 hre2 _ _ _ _ => ?_⟩
    cases hre2
  rcases hqu : req.quality with _ | qu
  · have h : webappSubmit req db = (400, db) := by
      simp [webappSubmit, hre, hqu]
    rw [h]
    refine ⟨fun _ => rfl, fun hX => by simp at hX,
      fun re2 qu2 sh2 _ hqu2 _ _ _ => ?_⟩
    cases hqu2
  rcases hsh : findSharpenStr req.imageUrl with _ | sh
  · have h : webappSubmit req db = (400, db) := by
      simp [webappSubmit, hre, hqu, hsh]
    rw [h]
    refine ⟨fun _ => rfl, fun hX => by simp at hX,
      fun re2 qu2 sh2 _ _ hsh2 _ _ => ?_⟩
    cases hsh2
  by_cases hv : req.imageUrl = "" ∨ req.age = 0 ∨ req.gender = "" ∨
      req.email = ""
  · have h : webappSubmit req db = (400, db) := by
      simp [webappSubmit, hre, hqu, hsh, hv]
    rw [h]
    exact ⟨fun _ => rfl, fun hX => by simp at hX,
      fun re2 qu2 sh2 _ _ _ hv2 _ => absurd hv hv2⟩
  · have h := webappSubmit_valid_eq req db hre hqu hsh hv
    by_cases hrange : 1 ≤ re ∧ re ≤ 5 ∧ 1 ≤ qu ∧ qu ≤ 5
    · rw [h, if_pos hrange]
      refine ⟨fun hX => absurd rfl hX, fun _ => ?_,
        fun re2 qu2 sh2 hre2 hqu2 _ _ hrange2 => ?_⟩
      · refine ⟨⟨(upsertUser db req).2, req.imageUrl, sh, re, qu⟩, ?_, ?_⟩
        · exact congrArg (fun l => l ++ _) (upsertUser_imageRatings db req)
        · exact upsertUser_hasId db req
      · cases hre2
        cases hqu2
        exact absurd hrange hrange2
    · rw [h, if_neg hrange]
      exact ⟨fun _ => rfl, fun hX => by simp at hX,
        fun _ _ _ _ _ _ _ _ => rfl⟩

/-- Witness for C8: a validated request carrying an out-of-range realism
value is answered 500 and leaves the empty database unchanged. -/
theorem C8_submit_transaction_witness :
    webappSubmit req500 emptyDb = (500, emptyDb) :=
  (C8_submit_transaction req500 emptyDb).2.2 6 3 20 rfl rfl (by decide)
    (by decide) (by decide)

/-- C1 counterexample: a path the batch driver produces for the concrete
source a0304-dgw_137.dng with preset 2 contains no sharpen-digits
substring, and an otherwise fully well-formed rating for that path is
rejected by the webapp /submit-rating handler with HTTP 400, so the
preset naming is not accepted by the rating web application. -/
theorem C1_counterexample :
    reqC1.imageUrl =
      "processed_images/a0304-dgw_137.dng_preset2_sg1.15_st0.50.jpg" ∧
    findSharpenStr reqC1.imageUrl = none ∧
    webappSubmit reqC1 emptyDb = (400, emptyDb) :=
  ⟨by decide, by decide, (submit_no_sharpen reqC1 emptyDb (by decide)).1⟩

/-- C1 amended: the driver writes each output at a path of exactly the
form dir slash file _preset N _sg gamma _st stops dot ext, but such a path
is rejected (HTTP 400, nothing written) by the webapp /submit-rating
handler whenever it lacks a sharpen-digits substring — which the suffix
appended by the driver never supplies — so the naming is not compatible
with the rating web application. -/
theorem C1_naming_amended (dir file : String) (n : Nat) (sg st ext : String) :
    outputName dir file n sg st ext =
      dir ++ "/" ++ file ++ "_preset" ++ toString n ++ "_sg" ++ sg ++ "_st"
        ++ st ++ "." ++ ext ∧
    ∀ (req : SubmitRequest) (db : Db),
      req.imageUrl = outputName dir file n sg st ext →
      findSharpenStr req.imageUrl = none →
      webappSubmit req db = (400, db) :=
  ⟨rfl, fun req db _ h => (submit_no_sharpen req db h).1⟩

/-- Witness for the amended C1 at the concrete produced path. -/
theorem C1_naming_amended_witness :
    webappSubmit reqC1 emptyDb = (400, emptyDb) :=
  (C1_naming_amended "processed_images" "a0304-dgw_137.dng" 2 "1.15" "0.50"
      "jpg").2 reqC1 emptyDb rfl (by decide)
